import Mathlib

/-!
# Verification of the `veeam_br` Home Assistant integration

A shallow embedding, in Lean 4, of the core of the `ha-veeam-br` repository:

* the session freshness policy of `VeeamTokenManager`
  (`custom_components/veeam_br/token_manager.py`),
* the fetch-and-normalize poll cycle `async_update_data`
  (`custom_components/veeam_br/__init__.py`),
* the dynamic entity reconciler: the `_sync_entities` callbacks of
  `sensor.py` and `button.py`, including `_remove_stale_button_entities`,
* the derived repository capacity values of `sensor.py`.

Python values coming back from the vendor SDK (attrs objects, enum
wrappers, the `UNSET` sentinel, plain JSON scalars) are modelled by the
inductive type `PyVal`.  A missing attribute is modelled as `Option.none`
on the corresponding field of a raw-record structure; accessing it raises
`AttributeError`.  Exceptions are modelled with `Except`.
-/

namespace VeeamBR

/-- A Python value as observed by the integration code: `None`, the
`UNSET` sentinel of the generated SDK, an enum wrapper exposing a `.value`
string, a plain string, int, bool, a datetime (abstracted to an integer
timestamp) or a JSON list. -/
inductive PyVal where
  | pynone : PyVal
  | unset : PyVal
  | enum (s : String) : PyVal
  | pystr (s : String) : PyVal
  | pyint (n : Int) : PyVal
  | pybool (b : Bool) : PyVal
  | pytime (t : Int) : PyVal
  | pylist (xs : List PyVal) : PyVal
  deriving Repr

/-- Python truthiness of a value (`bool(v)` / `if v:`).  `None`, the SDK
`UNSET` sentinel (whose `__bool__` returns `False`), the empty string,
zero, `False` and the empty list are falsy. -/
def pyTruthy : PyVal → Bool
  | .pynone => false
  | .unset => false
  | .pystr s => s ≠ ""
  | .pyint n => n ≠ 0
  | .pybool b => b
  | .pytime _ => true
  | .enum _ => true
  | .pylist xs => !xs.isEmpty

/-- Python `str(v)` for the values the integration passes to `str`
(identifiers and enum members; exact rendering of the other shapes is
irrelevant to every claim). -/
def pyStr : PyVal → String
  | .pynone => "None"
  | .unset => "UNSET"
  | .enum s => s
  | .pystr s => s
  | .pyint n => toString n
  | .pybool b => if b then "True" else "False"
  | .pytime t => toString t
  | .pylist _ => "[...]"

/-- Models `a or b` on a Python value against a default (used as
`job.name or "Unknown"`). -/
def pyOr (v : PyVal) (d : PyVal) : PyVal :=
  if pyTruthy v then v else d

/-- Exception kinds distinguished by the integration's `except` clauses. -/
inductive ExcKind where
  | attributeError : ExcKind
  | typeError : ExcKind
  | keyError : ExcKind
  | valueError : ExcKind
  | updateFailed : ExcKind
  | other : ExcKind
  deriving DecidableEq, Repr

/-- Attribute access `obj.attr` on a raw SDK record: a present attribute
returns its value; a missing one raises `AttributeError`. -/
def attrGet (a : Option PyVal) : Except ExcKind PyVal :=
  match a with
  | some v => .ok v
  | none => .error .attributeError

/-! ## `get_enum_value`, `get_datetime_value`, `get_uuid_value`
(`__init__.py`, nested helpers of `async_update_data`) -/

/-- Models `get_enum_value(enum_val, default="unknown")`: `None`/`UNSET` resolve
to the caller-supplied default; an enum wrapper resolves to its `.value`;
anything else is passed through `str`. -/
def get_enum_value (enum_val : PyVal) (d : String) : String :=
  match enum_val with
  | .pynone => d
  | .unset => d
  | .enum s => s
  | v => pyStr v

/-- Models `get_datetime_value(dt_val)`: `None`/`UNSET` normalize to `None`,
any other value is returned unchanged. -/
def get_datetime_value (dt_val : PyVal) : Option PyVal :=
  match dt_val with
  | .pynone => none
  | .unset => none
  | v => some v

/-- Models `get_uuid_value(uuid_val)`: `None`/`UNSET` normalize to `None`,
anything else to its string form. -/
def get_uuid_value (uuid_val : Option PyVal) : Option String :=
  match uuid_val with
  | none => none
  | some .pynone => none
  | some .unset => none
  | some v => some (pyStr v)

/-! ## Token manager (`token_manager.py`) -/

/-- The mutable authentication state of `VeeamTokenManager`. -/
structure TokenState where
  access_token : Option String
  refresh_token : Option String
  token_expires_at : Option Int
  deriving DecidableEq, Repr

/-- Models `VeeamTokenManager._needs_refresh`: stale when there is no access
token (or it is the empty, falsy string), no known expiry, or `now` is at
or past one minute (60 seconds) before the recorded expiry. -/
def needsRefresh (st : TokenState) (now : Int) : Bool :=
  match st.access_token with
  | none => true
  | some tok =>
    if tok = "" then true
    else
      match st.token_expires_at with
      | none => true
      | some expiresAt => decide (now ≥ expiresAt - 60)

/-- Result of `ensure_valid_token`: whether `_refresh_or_authenticate`
was invoked, and the resulting token state. -/
structure EnsureResult where
  attempted : Bool
  state : TokenState
  deriving DecidableEq, Repr

/-- Models `VeeamTokenManager.ensure_valid_token`: triggers
`_refresh_or_authenticate` exactly when `_needs_refresh()` holds and
otherwise returns with the state untouched.  The network outcome of the
refresh/re-authentication attempt is abstracted by the `refreshed`
parameter (the state `_refresh_or_authenticate` leaves behind). -/
def ensureValidToken (refreshed : TokenState) (st : TokenState) (now : Int) :
    EnsureResult :=
  if needsRefresh st now then { attempted := true, state := refreshed }
  else { attempted := false, state := st }

/-! ## Raw SDK records (`async_update_data` inputs)

Each field of a raw record is `Option PyVal`: `none` models a missing
attribute (direct access raises `AttributeError`); `getattr` with a
default never raises. -/

/-- A raw job-state record from `get_all_jobs_states`. -/
structure RawJob where
  id : Option PyVal
  name : Option PyVal
  type_ : Option PyVal
  status : Option PyVal
  last_result : Option PyVal
  last_run : Option PyVal
  next_run : Option PyVal
  deriving Repr

/-- The normalized job dict built by the jobs loop of `async_update_data`. -/
structure JobDict where
  id : String
  name : PyVal
  type_ : String
  status : String
  last_result : String
  last_run : Option PyVal
  next_run : Option PyVal
  deriving Repr

/-- The per-job body of the jobs loop: each attribute access can raise
`AttributeError`; enum fields go through `get_enum_value` with default
`"unknown"`, timestamps through `get_datetime_value`, and
`job.name or "Unknown"`. -/
def normalizeJob (job : RawJob) : Except ExcKind JobDict :=
  match job.id, job.name, job.type_, job.status, job.last_result,
      job.last_run, job.next_run with
  | some idv, some namev, some typev, some statusv, some lrv,
      some lastRunv, some nextRunv =>
    .ok { id := pyStr idv
        , name := pyOr namev (.pystr "Unknown")
        , type_ := get_enum_value typev "unknown"
        , status := get_enum_value statusv "unknown"
        , last_result := get_enum_value lrv "unknown"
        , last_run := get_datetime_value lastRunv
        , next_run := get_datetime_value nextRunv }
  | _, _, _, _, _, _, _ => .error .attributeError

/-- The jobs loop: `except (AttributeError, TypeError)` skips the failing
record and continues; any other exception kind propagates out of the loop
(the loop is not inside a best-effort section `try`). -/
def processJobs : List RawJob → Except ExcKind (List JobDict)
  | [] => .ok []
  | job :: rest =>
    match normalizeJob job with
    | .ok jd => (processJobs rest).map (fun l => jd :: l)
    | .error .attributeError => processJobs rest
    | .error .typeError => processJobs rest
    | .error e => .error e

/-- The sublist of records whose normalization succeeds (what the jobs
loop collects when nothing propagates). -/
def okJobs (jobs : List RawJob) : List JobDict :=
  jobs.filterMap (fun j => (normalizeJob j).toOption)

/-- A raw server-info record; every field is read with `getattr` and a
default, so normalization never raises. -/
structure RawServer where
  vbr_id : Option PyVal
  name : Option PyVal
  build_version : Option PyVal
  patches : Option PyVal
  database_vendor : Option PyVal
  sql_server_edition : Option PyVal
  sql_server_version : Option PyVal
  database_schema_version : Option PyVal
  database_content_version : Option PyVal
  platform_ : Option PyVal
  deriving Repr

/-- The normalized `server_info` dict. -/
structure ServerDict where
  vbr_id : PyVal
  name : PyVal
  build_version : PyVal
  patches : PyVal
  database_vendor : PyVal
  sql_server_edition : PyVal
  sql_server_version : PyVal
  database_schema_version : PyVal
  database_content_version : PyVal
  platform_ : String
  deriving Repr

/-- Models `getattr(obj, attr, default)`. -/
def getattrD (a : Option PyVal) (d : PyVal) : PyVal :=
  match a with
  | some v => v
  | none => d

/-- The server-info dict construction of `async_update_data`:
`getattr(..., "Unknown")` for the plain fields;
`server_data.platform.value` when the attribute exists and is an enum,
otherwise `str(getattr(server_data, "platform", "Unknown"))`. -/
def normalizeServer (sd : RawServer) : ServerDict :=
  { vbr_id := getattrD sd.vbr_id (.pystr "Unknown")
  , name := getattrD sd.name (.pystr "Unknown")
  , build_version := getattrD sd.build_version (.pystr "Unknown")
  , patches := getattrD sd.patches (.pylist [])
  , database_vendor := getattrD sd.database_vendor (.pystr "Unknown")
  , sql_server_edition := getattrD sd.sql_server_edition (.pystr "Unknown")
  , sql_server_version := getattrD sd.sql_server_version (.pystr "Unknown")
  , database_schema_version := getattrD sd.database_schema_version (.pystr "Unknown")
  , database_content_version := getattrD sd.database_content_version (.pystr "Unknown")
  , platform_ :=
      match sd.platform_ with
      | some (.enum s) => s
      | some v => pyStr v
      | none => pyStr (.pystr "Unknown") }

/-- A raw installed-license record; every field is read with
`getattr(..., None)` or `getattr(..., default)`, so normalization never
raises. -/
structure RawLicense where
  status : Option PyVal
  edition : Option PyVal
  type_ : Option PyVal
  expiration_date : Option PyVal
  support_expiration_date : Option PyVal
  support_id : Option PyVal
  auto_update_enabled : Option PyVal
  licensed_to : Option PyVal
  cloud_connect : Option PyVal
  free_agent_instance_consumption_enabled : Option PyVal
  deriving Repr

/-- The normalized `license_info` dict. -/
structure LicenseDict where
  status : String
  edition : String
  type_ : String
  expiration_date : Option PyVal
  support_expiration_date : Option PyVal
  support_id : PyVal
  auto_update_enabled : PyVal
  licensed_to : PyVal
  cloud_connect : String
  free_agent_instance_consumption_enabled : PyVal
  deriving Repr

/-- Models `get_license_enum_attr(obj, attr_name, default="Unknown")`:
missing attribute or `None` or the `Unset` sentinel resolve to the
default, an enum wrapper to its `.value`, anything else through `str`. -/
def get_license_enum_attr (a : Option PyVal) (d : String) : String :=
  match a with
  | none => d
  | some .pynone => d
  | some .unset => d
  | some (.enum s) => s
  | some v => pyStr v

/-- Models `get_license_datetime_attr(obj, attr_name)`: missing, `None` or
`Unset` resolve to `None`, anything else is returned unchanged. -/
def get_license_datetime_attr (a : Option PyVal) : Option PyVal :=
  match a with
  | none => none
  | some .pynone => none
  | some .unset => none
  | some v => some v

/-- The license-info dict construction of `async_update_data`. -/
def normalizeLicense (l : RawLicense) : LicenseDict :=
  { status := get_license_enum_attr l.status "Unknown"
  , edition := get_license_enum_attr l.edition "Unknown"
  , type_ := get_license_enum_attr l.type_ "Unknown"
  , expiration_date := get_license_datetime_attr l.expiration_date
  , support_expiration_date := get_license_datetime_attr l.support_expiration_date
  , support_id := getattrD l.support_id (.pystr "Unknown")
  , auto_update_enabled := getattrD l.auto_update_enabled (.pybool false)
  , licensed_to := getattrD l.licensed_to (.pystr "Unknown")
  , cloud_connect := get_license_enum_attr l.cloud_connect "Unknown"
  , free_agent_instance_consumption_enabled :=
      getattrD l.free_agent_instance_consumption_enabled (.pybool false) }

/-- Models `v if v is not UNSET else None`. -/
def notUnset : PyVal → Option PyVal
  | .unset => none
  | v => some v

/-! ## Repositories section -/

/-- The `immutability` sub-dict of an object-storage bucket
(`isEnabled`, `daysCount`; values read with `.get`, so `none` models an
absent key).  A value of this type models a present, truthy (non-empty)
dict. -/
structure Immutability where
  isEnabled : Option PyVal
  daysCount : Option PyVal
  deriving Repr

/-- The `bucket` entry of `repo.additional_properties`.  A value of this
type models a present, truthy dict; `immutability := none` models an
absent (or falsy) `immutability` key. -/
structure Bucket where
  immutability : Option Immutability
  deriving Repr

/-- The `additional_properties` dict of a raw repository or SOBR record,
with the `bucket` key (the only key the code reads individually) split
out from the remaining pass-through keys. -/
structure AddProps where
  bucket : Option Bucket
  extra : List (String × PyVal)
  deriving Repr

/-- A raw repository record from `get_all_repositories`.
`additional_properties := none` models `hasattr(repo,
"additional_properties")` being false. -/
structure RawRepo where
  id : Option PyVal
  name : Option PyVal
  description : Option PyVal
  type_ : Option PyVal
  unique_id : Option PyVal
  additional_properties : Option AddProps
  deriving Repr

/-- A raw repository-state record from `get_all_repositories_states`;
every field the code reads is accessed via `getattr(..., None)`. -/
structure RawRepoState where
  id : Option PyVal
  capacity_gb : Option ℚ
  free_gb : Option ℚ
  used_space_gb : Option ℚ
  is_online : Option Bool
  is_out_of_date : Option Bool
  deriving Repr

/-- The normalized repository dict.  An `Option` field with value `none`
models the key being absent from the dict (or present with `None`):
consumers read every such key with `.get`, which conflates the two. -/
structure RepoDict where
  id : Option String
  name : PyVal
  description : PyVal
  type_ : String
  unique_id : Option PyVal
  capacity_gb : Option ℚ
  free_gb : Option ℚ
  used_space_gb : Option ℚ
  is_online : Option Bool
  is_out_of_date : Option Bool
  is_immutable : Option Bool
  immutability_days : Option PyVal
  is_accessible : Option Bool
  extra : List (String × PyVal)
  deriving Repr

mutual

/-- Models `serialize_value`: `None`/`UNSET` serialize to `None`; primitives
pass through; lists recurse (an element serializing to `None` stays as a
`None` element); enum wrappers resolve to `.value`; remaining types
stringify. -/
def serialize_value : PyVal → Option PyVal
  | .pynone => none
  | .unset => none
  | .pystr s => some (.pystr s)
  | .pyint n => some (.pyint n)
  | .pybool b => some (.pybool b)
  | .pylist xs => some (.pylist (serializeList xs))
  | .enum s => some (.pystr s)
  | .pytime t => some (.pystr (toString t))

def serializeList : List PyVal → List PyVal
  | [] => []
  | v :: vs =>
    (match serialize_value v with
     | some w => w
     | none => .pynone) :: serializeList vs

end

/-- The pass-through of every `additional_properties` key into the
normalized dict, `repo_dict[key] = serialize_value(value)`.  The `bucket`
key itself is carried along unserialized under its own name; no claim
inspects its serialized shape, and its concrete rendering never collides
with the snake_case derived keys. -/
def extraProps : Option AddProps → List (String × PyVal)
  | none => []
  | some ap => ap.extra.map (fun p => (p.1, (serialize_value p.2).getD .pynone))

/-- The bucket-immutability resolution of `async_update_data`
(`__init__.py` lines 307-343): when `additional_properties` exposes a
truthy `bucket` with a truthy `immutability` whose `isEnabled` is not
`None`, set `is_immutable = bool(isEnabled)` and, when enabled, carry
`daysCount` (when not `None`) as `immutability_days`.  No other code path
sets `is_immutable`. -/
def bucketImmutability : Option AddProps → Option Bool × Option PyVal
  | none => (none, none)
  | some ap =>
    match ap.bucket with
    | none => (none, none)
    | some b =>
      match b.immutability with
      | none => (none, none)
      | some imm =>
        match imm.isEnabled with
        | none => (none, none)
        | some en =>
          let e := pyTruthy en
          (some e, if e then imm.daysCount else none)

/-- Models `states_by_id` construction: index the state records by their
stringified id, skipping falsy ids; a duplicate id overwrites the earlier
entry, as in a Python dict. -/
def buildStatesById (states : List RawRepoState) :
    List (String × RawRepoState) :=
  states.foldl
    (fun m st =>
      match get_uuid_value st.id with
      | none => m
      | some i =>
        if i = "" then m
        else (m.filter (fun p => p.1 ≠ i)) ++ [(i, st)])
    []

/-- Models `repo_id in states_by_id` / `states_by_id[repo_id]`. -/
def lookupState (repoId : Option String)
    (statesById : List (String × RawRepoState)) : Option RawRepoState :=
  match repoId with
  | none => none
  | some i => (statesById.find? (fun p => p.1 = i)).map (fun p => p.2)

/-- The per-repository body of the repositories loop of
`async_update_data`. -/
def normalizeRepo (statesById : List (String × RawRepoState))
    (repo : RawRepo) : Except ExcKind RepoDict :=
  match repo.id, repo.name, repo.description, repo.type_, repo.unique_id with
  | some idv, some namev, some descv, some typev, some uidv =>
    let repoId := get_uuid_value (some idv)
    let st := lookupState repoId statesById
    let immut := bucketImmutability repo.additional_properties
    .ok { id := repoId
        , name := pyOr namev (.pystr "Unknown")
        , description := pyOr descv (.pystr "")
        , type_ := get_enum_value typev "unknown"
        , unique_id := notUnset uidv
        , capacity_gb := st.bind (fun s => s.capacity_gb)
        , free_gb := st.bind (fun s => s.free_gb)
        , used_space_gb := st.bind (fun s => s.used_space_gb)
        , is_online := st.bind (fun s => s.is_online)
        , is_out_of_date := st.bind (fun s => s.is_out_of_date)
        , is_immutable := immut.1
        , immutability_days := immut.2
        , is_accessible := st.bind (fun s => s.is_online)
        , extra := extraProps repo.additional_properties }
  | _, _, _, _, _ => .error .attributeError

/-- The repositories loop: `except (AttributeError, TypeError)` skips the
record; any other kind aborts the loop and is caught by the section
handler, so the records appended so far are kept and the rest of the
batch is dropped. -/
def processRepos (statesById : List (String × RawRepoState)) :
    List RawRepo → List RepoDict
  | [] => []
  | repo :: rest =>
    match normalizeRepo statesById repo with
    | .ok rd => rd :: processRepos statesById rest
    | .error .attributeError => processRepos statesById rest
    | .error .typeError => processRepos statesById rest
    | .error _ => []

/-- The sublist of repository records whose normalization succeeds. -/
def okRepos (statesById : List (String × RawRepoState))
    (repos : List RawRepo) : List RepoDict :=
  repos.filterMap (fun r => (normalizeRepo statesById r).toOption)

/-! ## Scale-out repositories section -/

/-- A raw performance-extent record. -/
structure RawExtent where
  id : Option PyVal
  name : Option PyVal
  status : Option PyVal
  deriving Repr

/-- The `performance_tier` attribute; a value models a present, truthy
tier; `performance_extents := none` models the attribute being absent or
falsy. -/
structure PerfTier where
  performance_extents : Option (List RawExtent)
  deriving Repr

/-- A raw scale-out repository record. -/
structure RawSobr where
  id : Option PyVal
  name : Option PyVal
  description : Option PyVal
  unique_id : Option PyVal
  performance_tier : Option PerfTier
  additional_properties : Option AddProps
  deriving Repr

/-- A normalized extent dict. -/
structure ExtentDict where
  id : Option String
  name : PyVal
  status : List String
  deriving Repr

/-- The normalized SOBR dict; `extents := none` models the `"extents"`
key being absent (the key is only set when `performance_tier` is
present and truthy). -/
structure SobrDict where
  id : Option String
  name : PyVal
  description : PyVal
  unique_id : Option PyVal
  extents : Option (List ExtentDict)
  extra : List (String × PyVal)
  deriving Repr

/-- A Python comprehension over a fallible element function: the first
exception raised by an element propagates. -/
def mapExc {α β : Type} (f : α → Except ExcKind β) :
    List α → Except ExcKind (List β)
  | [] => .ok []
  | x :: xs =>
    match f x with
    | .ok y => (mapExc f xs).map (fun l => y :: l)
    | .error e => .error e

/-- Models `s.value` inside the status list comprehension: a non-enum element
has no `value` attribute. -/
def enumMemberValue : PyVal → Except ExcKind String
  | .enum s => .ok s
  | _ => .error .attributeError

/-- Models `[s.value for s in extent.status] if extent.status is not UNSET else
[]`: `UNSET` yields `[]`; iterating a non-list raises `TypeError`. -/
def extentStatusList : PyVal → Except ExcKind (List String)
  | .unset => .ok []
  | .pylist xs => mapExc enumMemberValue xs
  | _ => .error .typeError

/-- The per-extent dict construction. -/
def normalizeExtent (x : RawExtent) : Except ExcKind ExtentDict :=
  match x.id, x.name, x.status with
  | some idv, some namev, some statusv =>
    (extentStatusList statusv).map (fun sts =>
      { id := get_uuid_value (some idv)
      , name := pyOr namev (.pystr "Unknown")
      , status := sts })
  | _, _, _ => .error .attributeError

/-- The per-SOBR body of the SOBR loop of `async_update_data`. -/
def normalizeSobr (sobr : RawSobr) : Except ExcKind SobrDict :=
  match sobr.id, sobr.name, sobr.description, sobr.unique_id with
  | some idv, some namev, some descv, some uidv =>
    (match sobr.performance_tier with
     | none => Except.ok none
     | some pt =>
       match pt.performance_extents with
       | none => Except.ok (some [])
       | some exts => (mapExc normalizeExtent exts).map some).map
    (fun extents =>
      { id := get_uuid_value (some idv)
      , name := pyOr namev (.pystr "Unknown")
      , description := pyOr descv (.pystr "")
      , unique_id := notUnset uidv
      , extents := extents
      , extra := extraProps sobr.additional_properties })
  | _, _, _, _ => .error .attributeError

/-- The SOBR loop, with the same catch/abort structure as the
repositories loop. -/
def processSobrs : List RawSobr → List SobrDict
  | [] => []
  | sobr :: rest =>
    match normalizeSobr sobr with
    | .ok sd => sd :: processSobrs rest
    | .error .attributeError => processSobrs rest
    | .error .typeError => processSobrs rest
    | .error _ => []

/-- The sublist of SOBR records whose normalization succeeds. -/
def okSobrs (sobrs : List RawSobr) : List SobrDict :=
  sobrs.filterMap (fun s => (normalizeSobr s).toOption)

/-! ## The poll cycle `async_update_data` -/

/-- The diagnostics block of a snapshot. -/
structure Diagnostics where
  connected : Bool
  health_ok : Bool
  last_successful_poll : Option Int
  deriving DecidableEq, Repr

/-- The coordinator data dict returned by a successful poll. -/
structure Snapshot where
  jobs : List JobDict
  server_info : Option ServerDict
  license_info : Option LicenseDict
  repositories : List RepoDict
  sobrs : List SobrDict
  diagnostics : Diagnostics
  deriving Repr

/-- The outcome of each raw API call issued by one poll cycle:
`.error k` models the call raising, `.ok none` a falsy (absent)
response, `.ok (some d)` a truthy response whose `.data` is `d`. -/
structure FetchResults where
  jobs : Except ExcKind (Option (List RawJob))
  server_info : Except ExcKind (Option RawServer)
  license_ : Except ExcKind (Option RawLicense)
  repositories : Except ExcKind (Option (List RawRepo))
  repositories_states : Except ExcKind (Option (List RawRepoState))
  sobrs : Except ExcKind (Option (List RawSobr))

/-- The best-effort server-info section: its `try` catches every
exception, yielding `None` for the section. -/
def serverSection (f : Except ExcKind (Option RawServer)) : Option ServerDict :=
  match f with
  | .error _ => none
  | .ok none => none
  | .ok (some sd) => some (normalizeServer sd)

/-- The best-effort license section. -/
def licenseSection (f : Except ExcKind (Option RawLicense)) : Option LicenseDict :=
  match f with
  | .error _ => none
  | .ok none => none
  | .ok (some l) => some (normalizeLicense l)

/-- The best-effort repositories section: the repositories call, the
states call and the whole loop run inside one `try`; a raising call
leaves `repositories_list` empty. -/
def repoSection (fRepos : Except ExcKind (Option (List RawRepo)))
    (fStates : Except ExcKind (Option (List RawRepoState))) : List RepoDict :=
  match fRepos, fStates with
  | .error _, _ => []
  | .ok _, .error _ => []
  | .ok none, .ok _ => []
  | .ok (some repos), .ok statesOpt =>
    processRepos (buildStatesById (statesOpt.getD [])) repos

/-- The best-effort scale-out repositories section. -/
def sobrSection (f : Except ExcKind (Option (List RawSobr))) : List SobrDict :=
  match f with
  | .error _ => []
  | .ok none => []
  | .ok (some ss) => processSobrs ss

/-- The error a failed poll cycle surfaces: every exception escaping the
body of `async_update_data` (including the explicit
`UpdateFailed("Jobs API returned no data")`) is wrapped by the outer
handler into `UpdateFailed`. -/
inductive PollError where
  | updateFailed : PollError
  deriving DecidableEq, Repr

/-- Models `async_update_data` (`__init__.py`): `connected` is set before any
fetch; the jobs fetch is mandatory (a raising call or a falsy response
fails the poll); the server/license/repositories/SOBR sections are
independently best-effort; `health_ok` and `last_successful_poll` are set
only when the whole body succeeds.  Session acquisition and refresh are
handled inside the client's `call`; their failure surfaces as the first
(jobs) call raising. -/
def asyncUpdateData (now : Int) (fr : FetchResults) :
    Except PollError Snapshot :=
  match fr.jobs with
  | .error _ => .error .updateFailed
  | .ok none => .error .updateFailed
  | .ok (some jobsData) =>
    match processJobs jobsData with
    | .error _ => .error .updateFailed
    | .ok jobsList =>
      .ok { jobs := jobsList
          , server_info := serverSection fr.server_info
          , license_info := licenseSection fr.license_
          , repositories := repoSection fr.repositories fr.repositories_states
          , sobrs := sobrSection fr.sobrs
          , diagnostics :=
              { connected := true
              , health_ok := true
              , last_successful_poll := some now } }

/-- Modelled from the spec: the Poll Orchestrator (Home Assistant's
`DataUpdateCoordinator`, an external collaborator configured in
`async_setup_entry`; see spec section 4.3 and the comment at the end of
`async_update_data`) stores the new snapshot as current on success and on
failure leaves the previous snapshot in place for readers. -/
def coordinatorStep (prev : Option Snapshot)
    (result : Except PollError Snapshot) : Option Snapshot :=
  match result with
  | .ok s => some s
  | .error _ => prev

/-! ## Dynamic entity reconciler (`sensor.py` / `button.py`)

Entity-registry entries carry the entity's `unique_id`, the config entry
they belong to, and the device their `device_info` identifies.  Device
creation on entity registration is performed by the hosting framework
(devices appear when an entity carrying `device_info` is added); the
integration's own code never touches the device registry. -/

/-- A persisted entity-registry entry. -/
structure RegEntry where
  unique_id : String
  config_entry : String
  device : String
  deriving DecidableEq, Repr

/-- Python `uid.startswith(p)`. -/
def pyStartswith (s p : String) : Bool :=
  decide (p.data <+: s.data)

/-- Python `sub in s` (substring containment). -/
def pyContains (s sub : String) : Bool :=
  decide (sub.data <:+: s.data)

/-- Models `job.get("id")` with the loop's truthiness guard: `""` is falsy. -/
def truthyKey (s : String) : Option String :=
  if s = "" then none else some s

/-- The truthiness guard on an optional id (`repo.get("id")`). -/
def truthyOptKey (o : Option String) : Option String :=
  o.bind truthyKey

/-- Models `current_jobs_in_data`: the truthy job ids of the snapshot. -/
def currentJobIdsInData (snap : Snapshot) : List String :=
  (snap.jobs.map (fun j => j.id)).filter (fun i => i ≠ "")

/-- Models `current_repos_in_data`: the truthy repository ids of the snapshot. -/
def currentRepoIdsInData (snap : Snapshot) : List String :=
  snap.repositories.filterMap (fun r => truthyOptKey r.id)

/-- Models `current_sobr_extents_in_data`: the truthy (sobr id, extent id)
pairs of the snapshot (`sobr.get("extents", [])`). -/
def currentExtentIdsInData (snap : Snapshot) : List (String × String) :=
  snap.sobrs.flatMap (fun s =>
    match truthyOptKey s.id with
    | none => []
    | some sid =>
      (s.extents.getD []).filterMap (fun x =>
        (truthyOptKey x.id).map (fun xid => (sid, xid))))

/-- Models `active_job_prefixes`. -/
def activeJobUidStems (e : String) (snap : Snapshot) : List String :=
  (currentJobIdsInData snap).map (fun jid => e ++ "_job_" ++ jid ++ "_")

/-- Models `active_repo_prefixes`. -/
def activeRepoUidStems (e : String) (snap : Snapshot) : List String :=
  (currentRepoIdsInData snap).map (fun rid => e ++ "_repository_" ++ rid ++ "_")

/-- Models `active_sobr_extent_prefixes`. -/
def activeExtentUidStems (e : String) (snap : Snapshot) : List String :=
  (currentExtentIdsInData snap).map (fun p =>
    e ++ "_sobr_" ++ p.1 ++ "_extent_" ++ p.2 ++ "_")

/-- The per-entity stale test of `_remove_stale_button_entities`
(`button.py` lines 243-256): an entity whose `unique_id` falls into the
job / repository / SOBR-extent family is removed exactly when it matches
none of that family's active-id stems; any other `unique_id` is left
alone. -/
def staleDecision (e : String) (snap : Snapshot) (uid : String) : Bool :=
  if pyStartswith uid (e ++ "_job_") then
    !(activeJobUidStems e snap).any (fun p => pyStartswith uid p)
  else if pyStartswith uid (e ++ "_repository_") then
    !(activeRepoUidStems e snap).any (fun p => pyStartswith uid p)
  else if pyStartswith uid (e ++ "_sobr_") && pyContains uid "_extent_" then
    !(activeExtentUidStems e snap).any (fun p => pyStartswith uid p)
  else false

/-- Whether the registry scan removes this entity: it must belong to this
config entry (`async_entries_for_config_entry`), have a truthy
`unique_id` (`if not entity.unique_id: continue`), and be stale. -/
def staleEntity (e : String) (snap : Snapshot) (ent : RegEntry) : Bool :=
  ent.config_entry = e && ent.unique_id ≠ "" && staleDecision e snap ent.unique_id

/-- The registry after `_remove_stale_button_entities` scanned every
persisted entity of this config entry and removed the stale ones. -/
def removeStaleEntities (e : String) (snap : Snapshot)
    (entities : List RegEntry) : List RegEntry :=
  entities.filter (fun ent => !staleEntity e snap ent)

/-! ### Entity creation -/

/-- The job sensor entities created per job (`sensor.py`): status, type,
last-run and next-run sensors, each with
`unique_id = f"{entry_id}_job_{job_id}_{...}"` and device
`job_{job_id}`. -/
def jobSensorEntities (e : String) (jid : String) : List RegEntry :=
  ["status", "type", "last_run", "next_run"].map (fun sfx =>
    { unique_id := e ++ "_job_" ++ jid ++ "_" ++ sfx
    , config_entry := e
    , device := "job_" ++ jid })

/-- The repository sensor entities created per repository (`sensor.py`). -/
def repoSensorEntities (e : String) (rid : String) : List RegEntry :=
  ["type", "description", "capacity", "free_space", "used_space",
   "used_space_percent", "online", "out_of_date", "immutable",
   "object_lock", "hardened", "accessible", "mounted",
   "capacity_warning", "capacity_critical"].map (fun sfx =>
    { unique_id := e ++ "_repository_" ++ rid ++ "_" ++ sfx
    , config_entry := e
    , device := "repository_" ++ rid })

/-- The server sensor entities created once (`sensor.py`). -/
def serverEntities (e : String) : List RegEntry :=
  ["build_version", "name", "platform", "database_vendor", "sql_edition",
   "sql_version", "health_ok", "last_successful_poll", "connected"].map
    (fun sfx =>
      { unique_id := e ++ "_server_" ++ sfx
      , config_entry := e
      , device := "server_" ++ e })

/-- The license sensor entities created once (`sensor.py`). -/
def licenseEntities (e : String) : List RegEntry :=
  ["status", "edition", "type", "expiration", "support_expiration",
   "licensed_to", "support_id", "auto_update", "cloud_connect"].map
    (fun sfx =>
      { unique_id := e ++ "_license_" ++ sfx
      , config_entry := e
      , device := "license_" ++ e })

/-- The job button entities created per job (`button.py`): start, stop,
retry, enable, disable.  The `check_api_feature_availability` guards are
taken as satisfied: the default `1.3-rev1` SDK module ships all five
specs. -/
def jobButtonEntities (e : String) (jid : String) : List RegEntry :=
  ["start", "stop", "retry", "enable", "disable"].map (fun sfx =>
    { unique_id := e ++ "_job_" ++ jid ++ "_" ++ sfx
    , config_entry := e
    , device := "job_" ++ jid })

/-- The rescan button created per repository (`button.py`). -/
def repoButtonEntities (e : String) (rid : String) : List RegEntry :=
  [{ unique_id := e ++ "_repository_" ++ rid ++ "_rescan"
   , config_entry := e
   , device := "repository_" ++ rid }]

/-- The four mode buttons created per SOBR extent (`button.py`). -/
def extentButtonEntities (e : String) (sid xid : String) : List RegEntry :=
  ["enable_sealed_mode", "disable_sealed_mode",
   "enable_maintenance_mode", "disable_maintenance_mode"].map (fun sfx =>
    { unique_id := e ++ "_sobr_" ++ sid ++ "_extent_" ++ xid ++ "_" ++ sfx
    , config_entry := e
    , device := "sobr_" ++ sid })

/-- The shared shape of every dynamic-creation loop of `_sync_entities`:
walk the records, skip a record whose key is falsy or already in the
session tracking set, otherwise create its entities and remember the
key.  Returns the grown tracking set and the created entities. -/
def syncLoop {α : Type} {κ : Type} [DecidableEq κ]
    (key : α → Option κ) (mk : κ → List RegEntry) :
    List α → List κ → List κ × List RegEntry
  | [], added => (added, [])
  | x :: rest, added =>
    match key x with
    | none => syncLoop key mk rest added
    | some k =>
      if k ∈ added then syncLoop key mk rest added
      else
        let r := syncLoop key mk rest (k :: added)
        (r.1, mk k ++ r.2)

/-- Device registration performed by the hosting framework when entities
carrying `device_info` are added: each new entity's device appears in the
device registry (once). -/
def addDevices (devices : List String) (created : List RegEntry) :
    List String :=
  created.foldl
    (fun ds ent => if ent.device ∈ ds then ds else ds ++ [ent.device])
    devices

/-- The session-scoped tracking state of both platform modules plus the
persisted registries they act on. -/
structure SyncState where
  sensorAddedJobIds : List String
  sensorAddedRepoIds : List String
  serverAdded : Bool
  licenseAdded : Bool
  buttonAddedJobIds : List String
  buttonAddedRepoIds : List String
  buttonAddedExtentIds : List (String × String)
  entities : List RegEntry
  devices : List String
  deriving DecidableEq, Repr

/-- Models `_sync_entities` of `sensor.py`: returns if there is no coordinator
data; otherwise creates the missing job, repository, server and license
sensors.  This generation of `sensor.py` performs no removal. -/
def sensorSync (e : String) (data : Option Snapshot) (st : SyncState) :
    SyncState × List RegEntry :=
  match data with
  | none => (st, [])
  | some snap =>
    let rj := syncLoop (fun (j : JobDict) => truthyKey j.id)
      (jobSensorEntities e) snap.jobs st.sensorAddedJobIds
    let rr := syncLoop (fun (r : RepoDict) => truthyOptKey r.id)
      (repoSensorEntities e) snap.repositories st.sensorAddedRepoIds
    let rs : Bool × List RegEntry :=
      if !st.serverAdded && snap.server_info.isSome
      then (true, serverEntities e) else (st.serverAdded, [])
    let rl : Bool × List RegEntry :=
      if !st.licenseAdded && snap.license_info.isSome
      then (true, licenseEntities e) else (st.licenseAdded, [])
    let created := rj.2 ++ rr.2 ++ rs.2 ++ rl.2
    ({ st with
        sensorAddedJobIds := rj.1
      , sensorAddedRepoIds := rr.1
      , serverAdded := rs.1
      , licenseAdded := rl.1
      , entities := st.entities ++ created
      , devices := addDevices st.devices created }, created)

/-- The flattened SOBR-extent iteration of `button.py` (`for sobr ...:
if not sobr_id: continue; for extent ...`). -/
def allExtentPairs (sobrs : List SobrDict) : List (String × ExtentDict) :=
  sobrs.flatMap (fun s =>
    match truthyOptKey s.id with
    | none => []
    | some sid => (s.extents.getD []).map (fun x => (sid, x)))

/-- Models `_sync_entities` of `button.py`: creates missing job, repository and
SOBR-extent buttons, then runs `_remove_stale_button_entities`, which
scans the persisted registry for this config entry, removes stale
entities and intersects the session tracking sets with the ids still in
the data.  Returns the new state, the created entities and the removed
entities. -/
def buttonSync (e : String) (data : Option Snapshot) (st : SyncState) :
    SyncState × List RegEntry × List RegEntry :=
  match data with
  | none => (st, [], [])
  | some snap =>
    let rj := syncLoop (fun (j : JobDict) => truthyKey j.id)
      (jobButtonEntities e) snap.jobs st.buttonAddedJobIds
    let rr := syncLoop (fun (r : RepoDict) => truthyOptKey r.id)
      (repoButtonEntities e) snap.repositories st.buttonAddedRepoIds
    let rx := syncLoop
      (fun (p : String × ExtentDict) =>
        (truthyOptKey p.2.id).map (fun xid => (p.1, xid)))
      (fun k => extentButtonEntities e k.1 k.2)
      (allExtentPairs snap.sobrs) st.buttonAddedExtentIds
    let created := rj.2 ++ rr.2 ++ rx.2
    let entitiesAll := st.entities ++ created
    let removed := entitiesAll.filter (staleEntity e snap)
    ({ st with
        buttonAddedJobIds := rj.1.filter (fun i => i ∈ currentJobIdsInData snap)
      , buttonAddedRepoIds := rr.1.filter (fun i => i ∈ currentRepoIdsInData snap)
      , buttonAddedExtentIds :=
          rx.1.filter (fun p => p ∈ currentExtentIdsInData snap)
      , entities := removeStaleEntities e snap entitiesAll
      , devices := addDevices st.devices created }, created, removed)

/-- The full reconcile pass run after each coordinator update: the sensor
platform listener, then the button platform listener (platform setup
order). -/
structure ReconcileResult where
  state : SyncState
  created : List RegEntry
  removed : List RegEntry
  deriving DecidableEq, Repr

/-- Models `reconcile(snapshot)`. -/
def reconcile (e : String) (data : Option Snapshot) (st : SyncState) :
    ReconcileResult :=
  let r₁ := sensorSync e data st
  let r₂ := buttonSync e data r₁.1
  { state := r₂.1, created := r₁.2 ++ r₂.2.1, removed := r₂.2.2 }

/-! ## Derived repository capacity values (`sensor.py`) -/

/-- Models `self._repository()`: look up the repository record by stored id. -/
def findRepository (data : Option Snapshot) (repoId : Option String) :
    Option RepoDict :=
  match data with
  | none => none
  | some snap => snap.repositories.find? (fun r => r.id = repoId)

/-- Python `round(x, 1)` on the derived percentage, abstracted to
rounding the first decimal (the claims are independent of the half-even
tie rule). -/
def round1 (x : ℚ) : ℚ :=
  (round (x * 10) : ℤ) / 10

/-- Models `VeeamRepositoryUsedSpacePercentSensor.native_value`: the percentage
is computed only when `capacity_gb` is truthy, strictly positive, and
`used_space_gb` is not `None`; otherwise `None`. -/
def usedSpacePercentValue (data : Option Snapshot) (repoId : Option String) :
    Option ℚ :=
  match findRepository data repoId with
  | none => none
  | some repo =>
    match repo.capacity_gb, repo.used_space_gb with
    | some capacity, some used =>
      if capacity ≠ 0 ∧ 0 < capacity
      then some (round1 (used / capacity * 100))
      else none
    | _, _ => none

/-- Models `VeeamRepositoryCapacityWarningSensor.is_on`: free space below 15% of
capacity, guarded the same way; otherwise `None`. -/
def capacityWarningIsOn (data : Option Snapshot) (repoId : Option String) :
    Option Bool :=
  match findRepository data repoId with
  | none => none
  | some repo =>
    match repo.capacity_gb, repo.free_gb with
    | some capacity, some free =>
      if capacity ≠ 0 ∧ 0 < capacity
      then some (decide (free / capacity * 100 < 15))
      else none
    | _, _ => none

/-- Models `VeeamRepositoryCapacityCriticalSensor.is_on`: free space below 5% of
capacity, guarded the same way; otherwise `None`. -/
def capacityCriticalIsOn (data : Option Snapshot) (repoId : Option String) :
    Option Bool :=
  match findRepository data repoId with
  | none => none
  | some repo =>
    match repo.capacity_gb, repo.free_gb with
    | some capacity, some free =>
      if capacity ≠ 0 ∧ 0 < capacity
      then some (decide (free / capacity * 100 < 5))
      else none
    | _, _ => none

/-! ## Concrete evaluation inputs -/

/-- String ids whose characters contain no underscore (UUID-style ids). -/
def noUnderscore (s : String) : Prop := '_' ∉ s.data

instance (s : String) : Decidable (noUnderscore s) := by
  unfold noUnderscore; infer_instance

/-- A raw Linux-hardened repository: no object-storage `bucket`, but
`makeRecentBackupsImmutableDays = 7` among its additional properties. -/
def hlrRawRepo : RawRepo :=
  { id := some (.pystr "r1")
  , name := some (.pystr "HLR")
  , description := some (.pystr "hardened box")
  , type_ := some (.enum "LinuxHardened")
  , unique_id := some (.pystr "u-r1")
  , additional_properties :=
      some { bucket := none
           , extra := [("makeRecentBackupsImmutableDays", .pyint 7)] } }

/-- The dict `async_update_data` produces for `hlrRawRepo`. -/
def hlrRepoDict : RepoDict :=
  { id := some "r1"
  , name := .pystr "HLR"
  , description := .pystr "hardened box"
  , type_ := "LinuxHardened"
  , unique_id := some (.pystr "u-r1")
  , capacity_gb := none
  , free_gb := none
  , used_space_gb := none
  , is_online := none
  , is_out_of_date := none
  , is_immutable := none
  , immutability_days := none
  , is_accessible := none
  , extra := [("makeRecentBackupsImmutableDays", .pyint 7)] }

/-- A well-formed normalized job record with id `"j1"`. -/
def jobJ1 : JobDict :=
  { id := "j1", name := .pystr "Job One", type_ := "Backup"
  , status := "Stopped", last_result := "Success"
  , last_run := none, next_run := none }

/-- A snapshot whose only job is `jobJ1` (the current snapshot of the
convergence scenario: job `"j1_s"` has disappeared server-side). -/
def snapB : Snapshot :=
  { jobs := [jobJ1], server_info := none, license_info := none
  , repositories := [], sobrs := []
  , diagnostics := { connected := true, health_ok := true
                   , last_successful_poll := some 0 } }

/-- A persisted job-status sensor entity for the still-present job
`"j1"`. -/
def entJ1status : RegEntry :=
  { unique_id := "e_job_j1_status", config_entry := "e", device := "job_j1" }

/-- A persisted start-button entity materialized by a prior snapshot for
job id `"j1_s"` (an id extending `"j1"` by an underscore-separated
suffix). -/
def entJ1sStart : RegEntry :=
  { unique_id := "e_job_j1_s_start", config_entry := "e", device := "job_j1_s" }

/-- An empty reconciler state. -/
def st0 : SyncState :=
  { sensorAddedJobIds := [], sensorAddedRepoIds := []
  , serverAdded := false, licenseAdded := false
  , buttonAddedJobIds := [], buttonAddedRepoIds := []
  , buttonAddedExtentIds := [], entities := [], devices := [] }

/-- A reconciler state whose persisted registry holds `entJ1sStart`
(created during a previous Home Assistant session). -/
def stWithJ1s : SyncState :=
  { st0 with entities := [entJ1sStart] }

/-- A normalized repository record with id `"r1"`. -/
def repoR1 : RepoDict :=
  { id := some "r1"
  , name := .pystr "Repo One"
  , description := .pystr ""
  , type_ := "WinLocal"
  , unique_id := some (.pystr "u-r1")
  , capacity_gb := some 100
  , free_gb := some 40
  , used_space_gb := some 60
  , is_online := some true
  , is_out_of_date := some false
  , is_immutable := none
  , immutability_days := none
  , is_accessible := some true
  , extra := [] }

/-- A snapshot containing only the repository `repoR1`. -/
def snapR1 : Snapshot :=
  { jobs := [], server_info := none, license_info := none
  , repositories := [repoR1], sobrs := []
  , diagnostics := { connected := true, health_ok := true
                   , last_successful_poll := some 0 } }

/-- A snapshot with no jobs, repositories or SOBRs (`r1` deleted
server-side). -/
def snapNoRepo : Snapshot :=
  { jobs := [], server_info := none, license_info := none
  , repositories := [], sobrs := []
  , diagnostics := { connected := true, health_ok := true
                   , last_successful_poll := some 1 } }

/-- A raw job whose enum fields are present enum wrappers. -/
def rawJobA : RawJob :=
  { id := some (.pystr "j1")
  , name := some (.pystr "Job One")
  , type_ := some (.enum "Backup")
  , status := some (.enum "Running")
  , last_result := some (.enum "Success")
  , last_run := some (.pytime 100)
  , next_run := some .unset }

/-- The dict the jobs loop builds for `rawJobA`. -/
def jobDictA : JobDict :=
  { id := "j1", name := .pystr "Job One", type_ := "Backup"
  , status := "Running", last_result := "Success"
  , last_run := some (.pytime 100), next_run := none }

/-- A raw job whose status and last-result are the `UNSET` sentinel and
`None`. -/
def rawJobB : RawJob :=
  { id := some (.pystr "j2")
  , name := some .pynone
  , type_ := some .unset
  , status := some .unset
  , last_result := some .pynone
  , last_run := some .pynone
  , next_run := some .pynone }

/-- Fetch outcomes where the jobs call succeeds and every best-effort
call raises. -/
def frBestEffortDown : FetchResults :=
  { jobs := .ok (some [rawJobA, rawJobB])
  , server_info := .error .other
  , license_ := .error .other
  , repositories := .error .other
  , repositories_states := .error .other
  , sobrs := .error .other }

/-- Fetch outcomes where the jobs call returns a falsy response. -/
def frJobsEmpty : FetchResults :=
  { jobs := .ok none
  , server_info := .ok none
  , license_ := .ok none
  , repositories := .ok none
  , repositories_states := .ok none
  , sobrs := .ok none }

/-- A token state holding a valid-looking token that expires 30 seconds
after time 0. -/
def tokenNearExpiry : TokenState :=
  { access_token := some "tok"
  , refresh_token := some "refresh-tok"
  , token_expires_at := some 30 }

/-- The state `_refresh_or_authenticate` would leave behind. -/
def tokenRefreshed : TokenState :=
  { access_token := some "tok2"
  , refresh_token := some "refresh-tok2"
  , token_expires_at := some 930 }

/-- A snapshot standing in for the previously stored coordinator data. -/
def snapPrev : Snapshot := snapR1

/-! ## Helper lemmas -/

theorem normalizeJob_error_kind (job : RawJob) (e : ExcKind)
    (h : normalizeJob job = .error e) : e = .attributeError := by
  unfold normalizeJob at h
  split at h
  · exact absurd h (by simp)
  · exact (Except.error.injEq _ _).mp h.symm

theorem processJobs_eq (jobs : List RawJob) :
    processJobs jobs = .ok (okJobs jobs) := by
  induction jobs with
  | nil => rfl
  | cons job rest ih =>
    unfold processJobs okJobs
    cases h : normalizeJob job with
    | ok jd =>
      simp only [ih, Except.map_ok, List.filterMap_cons, h, Except.toOption]
      rfl
    | error e =>
      have he := normalizeJob_error_kind job e h
      subst he
      simpa [List.filterMap_cons, h, Except.toOption] using ih

theorem normalizeRepo_error_kind (statesById : List (String × RawRepoState))
    (repo : RawRepo) (e : ExcKind)
    (h : normalizeRepo statesById repo = .error e) : e = .attributeError := by
  unfold normalizeRepo at h
  split at h
  · exact absurd h (by simp)
  · exact (Except.error.injEq _ _).mp h.symm

theorem processRepos_eq (statesById : List (String × RawRepoState))
    (repos : List RawRepo) :
    processRepos statesById repos = okRepos statesById repos := by
  induction repos with
  | nil => rfl
  | cons repo rest ih =>
    unfold processRepos okRepos
    cases h : normalizeRepo statesById repo with
    | ok rd =>
      simp only [ih, List.filterMap_cons, h, Except.toOption]
      rfl
    | error e =>
      have he := normalizeRepo_error_kind statesById repo e h
      subst he
      simpa [List.filterMap_cons, h, Except.toOption] using ih

theorem except_map_error_iff {β γ : Type} (g : β → γ)
    (r : Except ExcKind β) (e : ExcKind) :
    r.map g = .error e ↔ r = .error e := by
  cases r <;> simp [Except.map]

theorem mapExc_error {α β : Type} (f : α → Except ExcKind β)
    (xs : List α) (e : ExcKind) (h : mapExc f xs = .error e) :
    ∃ x ∈ xs, f x = .error e := by
  induction xs with
  | nil => exact absurd h (by simp [mapExc])
  | cons x rest ih =>
    unfold mapExc at h
    cases hx : f x with
    | ok y =>
      simp only [hx] at h
      rw [except_map_error_iff] at h
      obtain ⟨z, hz, hfz⟩ := ih h
      exact ⟨z, List.mem_cons_of_mem x hz, hfz⟩
    | error e' =>
      simp only [hx, Except.error.injEq] at h
      subst h
      exact ⟨x, List.mem_cons_self x rest, hx⟩

theorem enumMemberValue_error_kind (v : PyVal) (e : ExcKind)
    (h : enumMemberValue v = .error e) : e = .attributeError := by
  unfold enumMemberValue at h
  split at h
  · exact absurd h (by simp)
  · exact ((Except.error.injEq _ _).mp h).symm

theorem extentStatusList_error_kind (v : PyVal) (e : ExcKind)
    (h : extentStatusList v = .error e) :
    e = .attributeError ∨ e = .typeError := by
  unfold extentStatusList at h
  split at h
  · exact absurd h (by simp)
  · obtain ⟨x, _, hx⟩ := mapExc_error _ _ _ h
    exact Or.inl (enumMemberValue_error_kind x e hx)
  · exact Or.inr ((Except.error.injEq _ _).mp h).symm

theorem normalizeExtent_error_kind (x : RawExtent) (e : ExcKind)
    (h : normalizeExtent x = .error e) :
    e = .attributeError ∨ e = .typeError := by
  unfold normalizeExtent at h
  split at h
  · rw [except_map_error_iff] at h
    exact extentStatusList_error_kind _ e h
  · exact Or.inl ((Except.error.injEq _ _).mp h).symm

theorem normalizeSobr_error_kind (sobr : RawSobr) (e : ExcKind)
    (h : normalizeSobr sobr = .error e) :
    e = .attributeError ∨ e = .typeError := by
  unfold normalizeSobr at h
  split at h
  · rw [except_map_error_iff] at h
    split at h
    · exact absurd h (by simp)
    · split at h
      · exact absurd h (by simp)
      · rw [except_map_error_iff] at h
        obtain ⟨x, _, hx⟩ := mapExc_error _ _ _ h
        exact normalizeExtent_error_kind x e hx
  · exact Or.inl ((Except.error.injEq _ _).mp h).symm

theorem processSobrs_eq (sobrs : List RawSobr) :
    processSobrs sobrs = okSobrs sobrs := by
  induction sobrs with
  | nil => rfl
  | cons sobr rest ih =>
    unfold processSobrs okSobrs
    cases h : normalizeSobr sobr with
    | ok sd =>
      simp only [ih, List.filterMap_cons, h, Except.toOption]
      rfl
    | error e =>
      rcases normalizeSobr_error_kind sobr e h with he | he <;> subst he <;>
        simpa [List.filterMap_cons, h, Except.toOption] using ih

/-! ## Claim theorems -/

/-- C1: contrary to the claim, the current `async_update_data` has no
hardened-repository fallback at all: for a repository without a bucket
immutability sub-structure but with `makeRecentBackupsImmutableDays = 7`
among its additional properties, `is_immutable` is left unset (so the
`Immutable` sensor renders it as `False`), even though the days value is
carried through verbatim.  `tests/test_basic.py::test_hlr_immutability_logic`
asserts the fallback must be present in `__init__.py`, so the code
contradicts its own test suite. -/
theorem C1_hardened_immutability_not_derived :
    normalizeRepo [] hlrRawRepo = .ok hlrRepoDict
    ∧ hlrRepoDict.is_immutable = none
    ∧ hlrRepoDict.extra = [("makeRecentBackupsImmutableDays", .pyint 7)] :=
  ⟨rfl, rfl, rfl⟩

/-- C3: when the jobs fetch succeeds, the poll returns a snapshot whose
jobs list is exactly the normalized jobs response and whose
`health_ok` is `True`; a raising license fetch leaves `license_info` as
`None`, and a raising server-info / repositories / repository-states /
SOBR fetch independently yields `None` or the empty list for just that
section, without aborting the poll. -/
theorem C3_partial_failure_containment (now : Int) (fr : FetchResults)
    (jobsData : List RawJob) (hjobs : fr.jobs = .ok (some jobsData))
    (hlic : ∃ k, fr.license_ = .error k) :
    ∃ s, asyncUpdateData now fr = .ok s
      ∧ s.jobs = okJobs jobsData
      ∧ s.diagnostics.health_ok = true
      ∧ s.diagnostics.connected = true
      ∧ s.license_info = none
      ∧ (∀ k, fr.server_info = .error k → s.server_info = none)
      ∧ (∀ k, fr.repositories = .error k → s.repositories = [])
      ∧ (∀ k, fr.repositories_states = .error k → s.repositories = [])
      ∧ (∀ k, fr.sobrs = .error k → s.sobrs = []) := by
  obtain ⟨k, hk⟩ := hlic
  refine ⟨{ jobs := okJobs jobsData
          , server_info := serverSection fr.server_info
          , license_info := licenseSection fr.license_
          , repositories := repoSection fr.repositories fr.repositories_states
          , sobrs := sobrSection fr.sobrs
          , diagnostics := { connected := true, health_ok := true
                           , last_successful_poll := some now } },
      ?_, rfl, rfl, rfl, ?_, ?_, ?_, ?_, ?_⟩
  · simp only [asyncUpdateData, hjobs, processJobs_eq]
  · simp [licenseSection, hk]
  · intro k' hk'; simp [serverSection, hk']
  · intro k' hk'; simp [repoSection, hk']
  · intro k' hk'
    simp only [repoSection, hk']
    rcases fr.repositories with _ | (_ | _) <;> rfl
  · intro k' hk'; simp [sobrSection, hk']

/-- C3 witness: the concrete fetch outcome `frBestEffortDown` (jobs call
succeeds, every best-effort call raises). -/
theorem C3_witness :
    ∃ s, asyncUpdateData 7 frBestEffortDown = .ok s
      ∧ s.jobs = okJobs [rawJobA, rawJobB]
      ∧ s.diagnostics.health_ok = true
      ∧ s.license_info = none
      ∧ s.server_info = none
      ∧ s.repositories = []
      ∧ s.sobrs = [] := by
  obtain ⟨s, h1, h2, h3, _, h5, h6, h7, _, h9⟩ :=
    C3_partial_failure_containment 7 frBestEffortDown [rawJobA, rawJobB]
      rfl ⟨.other, rfl⟩
  exact ⟨s, h1, h2, h3, h5, h6 .other rfl, h7 .other rfl, h9 .other rfl⟩

/-- C4: a raising jobs call (which is also how a failed session
acquisition surfaces, since the client acquires/refreshes the session
inside `call`) or a falsy jobs response fails the whole poll with
`UpdateFailed` and produces no snapshot; the orchestrator keeps the
previously stored snapshot for readers. -/
theorem C4_mandatory_jobs_fetch (now : Int) (fr : FetchResults)
    (prev : Option Snapshot)
    (h : (∃ k, fr.jobs = .error k) ∨ fr.jobs = .ok none) :
    asyncUpdateData now fr = .error .updateFailed
    ∧ coordinatorStep prev (asyncUpdateData now fr) = prev := by
  rcases h with ⟨k, hk⟩ | hk <;>
    · constructor
      · unfold asyncUpdateData; rw [hk]
      · unfold coordinatorStep asyncUpdateData; rw [hk]

/-- C4 witness: the concrete fetch outcome `frJobsEmpty` (falsy jobs
response) with `snapPrev` stored. -/
theorem C4_witness :
    asyncUpdateData 3 frJobsEmpty = .error .updateFailed
    ∧ coordinatorStep (some snapPrev) (asyncUpdateData 3 frJobsEmpty) =
      some snapPrev :=
  C4_mandatory_jobs_fetch 3 frJobsEmpty (some snapPrev) (Or.inr rfl)

/-- C5: in every normalized job record the `type`/`status`/`last_result`
fields are the strings produced by `get_enum_value` with default
`"unknown"`: an enum wrapper resolves to its underlying string value, and
`None` or the `UNSET` sentinel normalizes to `"unknown"`, which is not
the empty string. -/
theorem C5_enum_fields_are_strings (job : RawJob) (jd : JobDict)
    (h : normalizeJob job = .ok jd) :
    (∃ tv sv lv, job.type_ = some tv ∧ job.status = some sv
      ∧ job.last_result = some lv
      ∧ jd.type_ = get_enum_value tv "unknown"
      ∧ jd.status = get_enum_value sv "unknown"
      ∧ jd.last_result = get_enum_value lv "unknown")
    ∧ (∀ s, get_enum_value (.enum s) "unknown" = s)
    ∧ get_enum_value .pynone "unknown" = "unknown"
    ∧ get_enum_value .unset "unknown" = "unknown"
    ∧ ("unknown" : String) ≠ "" := by
  refine ⟨?_, fun s => rfl, rfl, rfl, by decide⟩
  unfold normalizeJob at h
  split at h
  · rename_i eid ename etype estatus elr elrun enrun
    obtain rfl := (Except.ok.injEq _ _).mp h
    exact ⟨_, _, _, etype, estatus, elr, rfl, rfl, rfl⟩
  · exact absurd h (by simp)

/-- C5 witness: the concrete raw job `rawJobA` normalizes to `jobDictA`,
whose status is the underlying enum string. -/
theorem C5_witness :
    ∃ sv, rawJobA.status = some sv
      ∧ jobDictA.status = get_enum_value sv "unknown" := by
  obtain ⟨⟨tv, sv, lv, h1, h2, h3, h4, h5, h6⟩, _⟩ :=
    C5_enum_fields_are_strings rawJobA jobDictA rfl
  exact ⟨sv, h2, h5⟩

/-- C6: `ensure_valid_token` invokes `_refresh_or_authenticate` exactly
when `_needs_refresh` holds — no access credential (or a falsy empty
one), no known expiry, or the current time at or past one minute before
the recorded expiry — and otherwise returns with the session state
unchanged. -/
theorem C6_session_freshness (refreshed st : TokenState) (now : Int) :
    ((ensureValidToken refreshed st now).attempted = true ↔
      needsRefresh st now = true)
    ∧ (needsRefresh st now = false →
        ensureValidToken refreshed st now =
          { attempted := false, state := st })
    ∧ (needsRefresh st now = true ↔
        st.access_token = none ∨ st.access_token = some ""
        ∨ st.token_expires_at = none
        ∨ ∃ expiresAt, st.token_expires_at = some expiresAt
            ∧ now ≥ expiresAt - 60) := by
  refine ⟨?_, ?_, ?_⟩
  · unfold ensureValidToken
    cases h : needsRefresh st now <;> simp [h]
  · intro h; unfold ensureValidToken; rw [h]; rfl
  · unfold needsRefresh
    cases hat : st.access_token with
    | none => simp
    | some tok =>
      by_cases htok : tok = ""
      · subst htok; simp
      · cases hexp : st.token_expires_at with
        | none => simp [htok]
        | some expiresAt => simp [htok, ge_iff_le]

/-- C6 witness: a session whose stored expiry is 30 seconds in the
future (inside the 1-minute margin) triggers a refresh/re-auth attempt. -/
theorem C6_witness :
    (ensureValidToken tokenRefreshed tokenNearExpiry 0).attempted = true :=
  (C6_session_freshness tokenRefreshed tokenNearExpiry 0).1.mpr (by decide)

/-- C8: in each of the three record loops, a record whose normalization
raises is skipped and every record whose normalization succeeds still
appears, in order — the loops never propagate an error, because within
the embedding a record normalization can only raise the
`AttributeError`/`TypeError` kinds that the per-record handlers catch. -/
theorem C8_per_record_containment :
    (∀ jobs : List RawJob, processJobs jobs = .ok (okJobs jobs))
    ∧ (∀ (statesById : List (String × RawRepoState)) (repos : List RawRepo),
        processRepos statesById repos = okRepos statesById repos)
    ∧ (∀ sobrs : List RawSobr, processSobrs sobrs = okSobrs sobrs) :=
  ⟨processJobs_eq, processRepos_eq, processSobrs_eq⟩

/-- C10: the used-space percentage and the capacity warning/critical
flags are computed exactly when the repository record is found, its
`capacity_gb` is present and strictly positive and the numerator
(`used_space_gb` resp. `free_gb`) is present; in every other case the
value is `None` — the ratio is never formed with a zero, negative or
absent capacity. -/
theorem C10_capacity_guards (data : Option Snapshot) (repoId : Option String) :
    ((∃ v, usedSpacePercentValue data repoId = some v) ↔
      ∃ repo c u, findRepository data repoId = some repo
        ∧ repo.capacity_gb = some c ∧ 0 < c ∧ repo.used_space_gb = some u)
    ∧ (∀ repo c u, findRepository data repoId = some repo →
        repo.capacity_gb = some c → 0 < c → repo.used_space_gb = some u →
        usedSpacePercentValue data repoId = some (round1 (u / c * 100)))
    ∧ ((∃ b, capacityWarningIsOn data repoId = some b) ↔
      ∃ repo c f, findRepository data repoId = some repo
        ∧ repo.capacity_gb = some c ∧ 0 < c ∧ repo.free_gb = some f)
    ∧ (∀ repo c f, findRepository data repoId = some repo →
        repo.capacity_gb = some c → 0 < c → repo.free_gb = some f →
        capacityWarningIsOn data repoId = some (decide (f / c * 100 < 15)))
    ∧ ((∃ b, capacityCriticalIsOn data repoId = some b) ↔
      ∃ repo c f, findRepository data repoId = some repo
        ∧ repo.capacity_gb = some c ∧ 0 < c ∧ repo.free_gb = some f)
    ∧ (∀ repo c f, findRepository data repoId = some repo →
        repo.capacity_gb = some c → 0 < c → repo.free_gb = some f →
        capacityCriticalIsOn data repoId = some (decide (f / c * 100 < 5))) := by
  refine ⟨?_, ?_, ?_, ?_, ?_, ?_⟩
  · cases hfind : findRepository data repoId with
    | none => simp only [usedSpacePercentValue, hfind]; simp
    | some repo =>
      simp only [usedSpacePercentValue, hfind]
      constructor
      · rintro ⟨v, hv⟩
        split at hv
        · rename_i c u hcap hused
          split at hv
          · rename_i hguard
            exact ⟨repo, c, u, rfl, hcap, hguard.2, hused⟩
          · exact Option.noConfusion hv
        all_goals exact Option.noConfusion hv
      · rintro ⟨repo', c, u, hr', hc, hpos, hu⟩
        obtain rfl := (Option.some.injEq _ _).mp hr'
        simp only [hc, hu]
        rw [if_pos ⟨hpos.ne', hpos⟩]
        exact ⟨_, rfl⟩
  · intro repo c u hfind hc hpos hu
    unfold usedSpacePercentValue
    simp only [hfind, hc, hu]
    rw [if_pos ⟨hpos.ne', hpos⟩]
  · cases hfind : findRepository data repoId with
    | none => simp only [capacityWarningIsOn, hfind]; simp
    | some repo =>
      simp only [capacityWarningIsOn, hfind]
      constructor
      · rintro ⟨v, hv⟩
        split at hv
        · rename_i c f hcap hfree
          split at hv
          · rename_i hguard
            exact ⟨repo, c, f, rfl, hcap, hguard.2, hfree⟩
          · exact Option.noConfusion hv
        all_goals exact Option.noConfusion hv
      · rintro ⟨repo', c, f, hr', hc, hpos, hf⟩
        obtain rfl := (Option.some.injEq _ _).mp hr'
        simp only [hc, hf]
        rw [if_pos ⟨hpos.ne', hpos⟩]
        exact ⟨_, rfl⟩
  · intro repo c f hfind hc hpos hf
    unfold capacityWarningIsOn
    simp only [hfind, hc, hf]
    rw [if_pos ⟨hpos.ne', hpos⟩]
  · cases hfind : findRepository data repoId with
    | none => simp only [capacityCriticalIsOn, hfind]; simp
    | some repo =>
      simp only [capacityCriticalIsOn, hfind]
      constructor
      · rintro ⟨v, hv⟩
        split at hv
        · rename_i c f hcap hfree
          split at hv
          · rename_i hguard
            exact ⟨repo, c, f, rfl, hcap, hguard.2, hfree⟩
          · exact Option.noConfusion hv
        all_goals exact Option.noConfusion hv
      · rintro ⟨repo', c, f, hr', hc, hpos, hf⟩
        obtain rfl := (Option.some.injEq _ _).mp hr'
        simp only [hc, hf]
        rw [if_pos ⟨hpos.ne', hpos⟩]
        exact ⟨_, rfl⟩
  · intro repo c f hfind hc hpos hf
    unfold capacityCriticalIsOn
    simp only [hfind, hc, hf]
    rw [if_pos ⟨hpos.ne', hpos⟩]

/-- C10 witness: the repository `repoR1` (capacity 100, used 60,
free 40) yields a 60% used-space value and a quiet warning flag. -/
theorem C10_witness :
    usedSpacePercentValue (some snapR1) (some "r1") = some 60
    ∧ capacityWarningIsOn (some snapR1) (some "r1") = some false := by
  have h := C10_capacity_guards (some snapR1) (some "r1")
  constructor
  · have hval := h.2.1 repoR1 100 60 rfl rfl (by norm_num) rfl
    rw [hval]
    norm_num [round1]
  · have hval := h.2.2.2.1 repoR1 100 40 rfl rfl (by norm_num) rfl
    rw [hval]
    simp only [Option.some.injEq, decide_eq_false_iff_not]
    norm_num

/-! ## String lemmas for the registry scan -/

theorem strData_append (s t : String) : (s ++ t).data = s.data ++ t.data :=
  rfl

theorem pfx_cancel {α : Type} (l l₁ l₂ : List α) :
    l ++ l₁ <+: l ++ l₂ ↔ l₁ <+: l₂ :=
  List.prefix_append_right_inj l

theorem pyStartswith_iff (s p : String) :
    pyStartswith s p = true ↔ p.data <+: s.data := by
  simp [pyStartswith]

theorem string_eq_of_data_eq {s t : String} (h : s.data = t.data) : s = t := by
  cases s; cases t; exact congrArg String.mk h

/-- Underscore-separated segments disambiguate: if neither `a` nor `b`
contains an underscore, a prefix relation between `a ++ '_' :: t₁` and
`b ++ '_' :: t₂` forces `a = b`. -/
theorem underscore_sep {a b t₁ t₂ : List Char}
    (ha : '_' ∉ a) (hb : '_' ∉ b)
    (h : a ++ '_' :: t₁ <+: b ++ '_' :: t₂) : a = b ∧ t₁ <+: t₂ := by
  induction a generalizing b with
  | nil =>
    cases b with
    | nil =>
      refine ⟨rfl, ?_⟩
      simp only [List.nil_append] at h
      exact (List.cons_prefix_cons.mp h).2
    | cons d bs =>
      exfalso
      simp only [List.nil_append, List.cons_append] at h
      have := (List.cons_prefix_cons.mp h).1
      exact hb (this ▸ List.mem_cons_self d bs)
  | cons c as ih =>
    cases b with
    | nil =>
      exfalso
      simp only [List.cons_append, List.nil_append] at h
      have := (List.cons_prefix_cons.mp h).1
      exact ha (this ▸ List.mem_cons_self c as)
    | cons d bs =>
      simp only [List.cons_append] at h
      obtain ⟨hcd, hrest⟩ := List.cons_prefix_cons.mp h
      obtain ⟨hab, ht⟩ := ih (fun hm => ha (List.mem_cons_of_mem c hm))
        (fun hm => hb (List.mem_cons_of_mem d hm)) hrest
      exact ⟨by rw [hcd, hab], ht⟩

/-- A unique id of the form `stem ++ i ++ "_" ++ sfx` matches an active
stem `stem ++ i' ++ "_"` exactly for `i' = i`, when neither id contains
an underscore. -/
theorem stem_match_iff (stem i i' sfx : String)
    (hi : noUnderscore i) (hi' : noUnderscore i') :
    pyStartswith (stem ++ i ++ "_" ++ sfx) (stem ++ i' ++ "_") = true ↔
      i' = i := by
  rw [pyStartswith_iff]
  constructor
  · intro h
    simp only [strData_append, List.append_assoc] at h
    rw [pfx_cancel] at h
    have h' : i'.data ++ '_' :: [] <+: i.data ++ '_' :: sfx.data := by
      simpa using h
    exact string_eq_of_data_eq (underscore_sep hi' hi h').1
  · rintro rfl
    simp only [strData_append, List.append_assoc]
    rw [pfx_cancel, pfx_cancel]
    exact ⟨sfx.data, by simp⟩

/-- Same disambiguation for the two-component SOBR-extent stems. -/
theorem extent_stem_match_iff (stem sid xid sid' xid' sfx : String)
    (hs : noUnderscore sid) (hx : noUnderscore xid)
    (hs' : noUnderscore sid') (hx' : noUnderscore xid') :
    pyStartswith (stem ++ sid ++ "_extent_" ++ xid ++ "_" ++ sfx)
      (stem ++ sid' ++ "_extent_" ++ xid' ++ "_") = true ↔
      sid' = sid ∧ xid' = xid := by
  rw [pyStartswith_iff]
  constructor
  · intro h
    simp only [strData_append, List.append_assoc] at h
    rw [pfx_cancel] at h
    have h' : sid'.data ++ '_' :: ("extent_".data ++ (xid'.data ++ '_' :: []))
        <+: sid.data ++ '_' :: ("extent_".data ++ (xid.data ++ '_' :: sfx.data)) := by
      simpa using h
    obtain ⟨hsid, hrest⟩ := underscore_sep hs' hs h'
    rw [pfx_cancel] at hrest
    have hrest' : xid'.data ++ '_' :: [] <+: xid.data ++ '_' :: sfx.data := hrest
    obtain ⟨hxid, _⟩ := underscore_sep hx' hx hrest'
    exact ⟨string_eq_of_data_eq hsid, string_eq_of_data_eq hxid⟩
  · rintro ⟨rfl, rfl⟩
    simp only [strData_append, List.append_assoc]
    rw [pfx_cancel, pfx_cancel]
    rw [pfx_cancel, pfx_cancel]
    exact ⟨sfx.data, by simp⟩

/-- A string of the shape `s ++ t` where `t` begins with a character is
not empty. -/
theorem append_cons_ne_empty (s : String) (c : Char) (rest : List Char) :
    s ++ ⟨c :: rest⟩ ≠ "" := by
  intro h
  have : (s ++ ⟨c :: rest⟩).data = ("" : String).data := by rw [h]
  rw [strData_append] at this
  simp at this

/-- Models `"_job_"` is not a prefix of `"_repository_" ++ rest` and similar
category-marker separations (first differing character). -/
theorem marker_not_pfx {c₁ c₂ : Char} (hne : c₁ ≠ c₂)
    (t₁ t₂ : List Char) :
    ¬('_' :: c₁ :: t₁ <+: '_' :: c₂ :: t₂) := by
  intro h
  obtain ⟨-, h2⟩ := List.cons_prefix_cons.mp h
  exact hne (List.cons_prefix_cons.mp h2).1

theorem append3_ne_empty (a m b : String) (hm : m.data ≠ []) :
    a ++ m ++ b ≠ "" := by
  intro h
  have hd := congrArg String.data h
  simp only [strData_append] at hd
  exact hm (List.append_eq_nil.mp (List.append_eq_nil.mp hd).1).2

/-- The stale test on a job-family unique id: stale exactly when the id
is not among the snapshot's job ids. -/
theorem staleDecision_job (e : String) (snap : Snapshot) (j sfx : String)
    (hj : noUnderscore j)
    (hjc : ∀ i ∈ currentJobIdsInData snap, noUnderscore i) :
    staleDecision e snap (e ++ "_job_" ++ j ++ "_" ++ sfx) =
      !(decide (j ∈ currentJobIdsInData snap)) := by
  unfold staleDecision
  rw [if_pos ?hpos]
  case hpos =>
    rw [pyStartswith_iff]
    simp only [strData_append, List.append_assoc]
    rw [pfx_cancel]
    exact ⟨_, rfl⟩
  congr 1
  rw [Bool.eq_iff_iff, List.any_eq_true, decide_eq_true_iff]
  constructor
  · rintro ⟨p, hp, hmatch⟩
    unfold activeJobUidStems at hp
    obtain ⟨i, hi, rfl⟩ := List.mem_map.mp hp
    obtain rfl := (stem_match_iff (e ++ "_job_") j i sfx hj (hjc i hi)).mp hmatch
    exact hi
  · intro hmem
    refine ⟨e ++ "_job_" ++ j ++ "_", ?_, ?_⟩
    · exact List.mem_map.mpr ⟨j, hmem, rfl⟩
    · exact (stem_match_iff (e ++ "_job_") j j sfx hj hj).mpr rfl

/-- The stale test on a repository-family unique id. -/
theorem staleDecision_repo (e : String) (snap : Snapshot) (r sfx : String)
    (hr : noUnderscore r)
    (hrc : ∀ i ∈ currentRepoIdsInData snap, noUnderscore i) :
    staleDecision e snap (e ++ "_repository_" ++ r ++ "_" ++ sfx) =
      !(decide (r ∈ currentRepoIdsInData snap)) := by
  unfold staleDecision
  rw [if_neg ?hneg, if_pos ?hpos]
  case hneg =>
    simp only [pyStartswith_iff, strData_append, List.append_assoc,
      pfx_cancel]
    exact marker_not_pfx (by decide) _ _
  case hpos =>
    rw [pyStartswith_iff]
    simp only [strData_append, List.append_assoc]
    rw [pfx_cancel]
    exact ⟨_, rfl⟩
  congr 1
  rw [Bool.eq_iff_iff, List.any_eq_true, decide_eq_true_iff]
  constructor
  · rintro ⟨p, hp, hmatch⟩
    unfold activeRepoUidStems at hp
    obtain ⟨i, hi, rfl⟩ := List.mem_map.mp hp
    obtain rfl := (stem_match_iff (e ++ "_repository_") r i sfx hr
      (hrc i hi)).mp hmatch
    exact hi
  · intro hmem
    refine ⟨e ++ "_repository_" ++ r ++ "_", ?_, ?_⟩
    · exact List.mem_map.mpr ⟨r, hmem, rfl⟩
    · exact (stem_match_iff (e ++ "_repository_") r r sfx hr hr).mpr rfl

/-- The stale test on a SOBR-extent-family unique id. -/
theorem staleDecision_extent (e : String) (snap : Snapshot)
    (sid xid sfx : String) (hs : noUnderscore sid) (hx : noUnderscore xid)
    (hxc : ∀ p ∈ currentExtentIdsInData snap,
      noUnderscore p.1 ∧ noUnderscore p.2) :
    staleDecision e snap
        (e ++ "_sobr_" ++ sid ++ "_extent_" ++ xid ++ "_" ++ sfx) =
      !(decide ((sid, xid) ∈ currentExtentIdsInData snap)) := by
  unfold staleDecision
  rw [if_neg ?hnegJob, if_neg ?hnegRepo, if_pos ?hpos]
  case hnegJob =>
    simp only [pyStartswith_iff, strData_append, List.append_assoc,
      pfx_cancel]
    exact marker_not_pfx (by decide) _ _
  case hnegRepo =>
    simp only [pyStartswith_iff, strData_append, List.append_assoc,
      pfx_cancel]
    exact marker_not_pfx (by decide) _ _
  case hpos =>
    rw [Bool.and_eq_true]
    constructor
    · rw [pyStartswith_iff]
      simp only [strData_append, List.append_assoc]
      rw [pfx_cancel]
      exact ⟨_, rfl⟩
    · rw [pyContains]
      rw [decide_eq_true_iff]
      refine ⟨e.data ++ "_sobr_".data ++ sid.data,
        xid.data ++ "_".data ++ sfx.data, ?_⟩
      simp [strData_append, List.append_assoc]
  congr 1
  rw [Bool.eq_iff_iff, List.any_eq_true, decide_eq_true_iff]
  constructor
  · rintro ⟨p, hp, hmatch⟩
    unfold activeExtentUidStems at hp
    obtain ⟨q, hq, rfl⟩ := List.mem_map.mp hp
    obtain ⟨h1, h2⟩ := (extent_stem_match_iff (e ++ "_sobr_") sid xid q.1 q.2
      sfx hs hx (hxc q hq).1 (hxc q hq).2).mp hmatch
    have : q = (sid, xid) := by
      cases q; simp only at h1 h2; rw [h1, h2]
    rw [← this]; exact hq
  · intro hmem
    refine ⟨e ++ "_sobr_" ++ sid ++ "_extent_" ++ xid ++ "_", ?_, ?_⟩
    · exact List.mem_map.mpr ⟨(sid, xid), hmem, rfl⟩
    · exact (extent_stem_match_iff (e ++ "_sobr_") sid xid sid xid sfx
        hs hx hs hx).mpr ⟨rfl, rfl⟩

/-- C2 (amended): the stale-entity scan works on the persisted registry
(`reg` is arbitrary — it need not have been created by this process), and
for source ids free of underscores (as the server's UUID ids are), an
entity of this config entry keyed to a job / repository / SOBR-extent id
survives the scan exactly when its id is still in the snapshot: every
entity whose source id disappeared is removed and no entity whose source
id is still present is removed. -/
theorem C2_stale_removal_scan (e : String) (snap : Snapshot)
    (reg : List RegEntry) (ent : RegEntry)
    (hce : ent.config_entry = e)
    (hjc : ∀ i ∈ currentJobIdsInData snap, noUnderscore i)
    (hrc : ∀ i ∈ currentRepoIdsInData snap, noUnderscore i)
    (hxc : ∀ p ∈ currentExtentIdsInData snap,
      noUnderscore p.1 ∧ noUnderscore p.2) :
    (∀ j sfx, noUnderscore j →
      ent.unique_id = e ++ "_job_" ++ j ++ "_" ++ sfx →
      (ent ∈ removeStaleEntities e snap reg ↔
        ent ∈ reg ∧ j ∈ currentJobIdsInData snap))
    ∧ (∀ r sfx, noUnderscore r →
      ent.unique_id = e ++ "_repository_" ++ r ++ "_" ++ sfx →
      (ent ∈ removeStaleEntities e snap reg ↔
        ent ∈ reg ∧ r ∈ currentRepoIdsInData snap))
    ∧ (∀ sid xid sfx, noUnderscore sid → noUnderscore xid →
      ent.unique_id = e ++ "_sobr_" ++ sid ++ "_extent_" ++ xid ++ "_" ++ sfx →
      (ent ∈ removeStaleEntities e snap reg ↔
        ent ∈ reg ∧ (sid, xid) ∈ currentExtentIdsInData snap)) := by
  refine ⟨?_, ?_, ?_⟩
  · intro j sfx hj huid
    unfold removeStaleEntities
    rw [List.mem_filter]
    refine and_congr Iff.rfl ?_
    have hne : ent.unique_id ≠ "" := by
      rw [huid]; exact append3_ne_empty _ "_" _ (by decide)
    unfold staleEntity
    rw [huid, hce, staleDecision_job e snap j sfx hj hjc]
    rw [← huid]
    simp [hne]
  · intro r sfx hr huid
    unfold removeStaleEntities
    rw [List.mem_filter]
    refine and_congr Iff.rfl ?_
    have hne : ent.unique_id ≠ "" := by
      rw [huid]; exact append3_ne_empty _ "_" _ (by decide)
    unfold staleEntity
    rw [huid, hce, staleDecision_repo e snap r sfx hr hrc]
    rw [← huid]
    simp [hne]
  · intro sid xid sfx hs hx huid
    unfold removeStaleEntities
    rw [List.mem_filter]
    refine and_congr Iff.rfl ?_
    have hne : ent.unique_id ≠ "" := by
      rw [huid]; exact append3_ne_empty _ "_" _ (by decide)
    unfold staleEntity
    rw [huid, hce, staleDecision_extent e snap sid xid sfx hs hx hxc]
    rw [← huid]
    simp [hne]

/-- C2 witness: the persisted entity `entJ1status` (job `"j1"`, which is
still in `snapB`) survives the scan. -/
theorem C2_witness :
    entJ1status ∈ removeStaleEntities "e" snapB [entJ1status] := by
  have h := (C2_stale_removal_scan "e" snapB [entJ1status] entJ1status
    rfl (by decide) (by decide) (by decide)).1 "j1" "status"
    (by decide) rfl
  exact h.mpr ⟨List.mem_singleton.mpr rfl, by decide⟩

/-- C2 counterexample to the claim as stated: the persisted button
entity `entJ1sStart` was materialized for job id `"j1_s"`, which is
absent from `snapB`; yet a full reconcile pass against `snapB` leaves it
in the registry, because its unique id
`"e_job_j1_s_start"` also extends the active stem of the still-present
job `"j1"`. -/
theorem C2_counterexample :
    entJ1sStart.unique_id = "e" ++ "_job_" ++ "j1_s" ++ "_" ++ "start"
    ∧ "j1_s" ∉ currentJobIdsInData snapB
    ∧ entJ1sStart ∈ (reconcile "e" (some snapB) stWithJ1s).state.entities := by
  refine ⟨rfl, by decide, ?_⟩
  decide

/-! ## Reconciler idempotence machinery -/

theorem syncLoop_added_mem {α κ : Type} [DecidableEq κ]
    (key : α → Option κ) (mk : κ → List RegEntry)
    (xs : List α) (added : List κ) (k : κ) (hk : k ∈ added) :
    k ∈ (syncLoop key mk xs added).1 := by
  induction xs generalizing added with
  | nil => exact hk
  | cons x rest ih =>
    cases hkey : key x with
    | none => simp only [syncLoop, hkey]; exact ih added hk
    | some k' =>
      simp only [syncLoop, hkey]
      by_cases hmem : k' ∈ added
      · rw [if_pos hmem]; exact ih added hk
      · rw [if_neg hmem]
        exact ih (k' :: added) (List.mem_cons_of_mem k' hk)

theorem syncLoop_key_mem {α κ : Type} [DecidableEq κ]
    (key : α → Option κ) (mk : κ → List RegEntry)
    (xs : List α) (added : List κ) (x : α) (hx : x ∈ xs) (k : κ)
    (hkey : key x = some k) :
    k ∈ (syncLoop key mk xs added).1 := by
  induction xs generalizing added with
  | nil => exact absurd hx (List.not_mem_nil x)
  | cons y rest ih =>
    rcases List.mem_cons.mp hx with rfl | hx'
    · simp only [syncLoop, hkey]
      by_cases hmem : k ∈ added
      · rw [if_pos hmem]; exact syncLoop_added_mem key mk rest added k hmem
      · rw [if_neg hmem]
        exact syncLoop_added_mem key mk rest (k :: added) k
          (List.mem_cons_self k added)
    · cases hkey' : key y with
      | none => simp only [syncLoop, hkey']; exact ih added hx'
      | some k' =>
        simp only [syncLoop, hkey']
        by_cases hmem : k' ∈ added
        · rw [if_pos hmem]; exact ih added hx'
        · rw [if_neg hmem]; exact ih (k' :: added) hx'

theorem syncLoop_stable {α κ : Type} [DecidableEq κ]
    (key : α → Option κ) (mk : κ → List RegEntry)
    (xs : List α) (added : List κ)
    (h : ∀ x ∈ xs, ∀ k, key x = some k → k ∈ added) :
    syncLoop key mk xs added = (added, []) := by
  induction xs with
  | nil => rfl
  | cons x rest ih =>
    cases hkey : key x with
    | none =>
      simp only [syncLoop, hkey]
      exact ih (fun y hy k hk => h y (List.mem_cons_of_mem x hy) k hk)
    | some k =>
      simp only [syncLoop, hkey]
      rw [if_pos (h x (List.mem_cons_self x rest) k hkey)]
      exact ih (fun y hy k' hk' => h y (List.mem_cons_of_mem x hy) k' hk')

theorem filter_not_filter {α : Type} (p : α → Bool) (l : List α) :
    (l.filter (fun a => !p a)).filter p = [] := by
  induction l with
  | nil => rfl
  | cons a rest ih => cases h : p a <;> simp [List.filter_cons, h, ih]

theorem filter_neg_eq_self_of_filter_nil {α : Type} (p : α → Bool)
    (l : List α) (h : l.filter p = []) :
    l.filter (fun a => !p a) = l := by
  induction l with
  | nil => rfl
  | cons a rest ih =>
    cases hpa : p a
    · rw [List.filter_cons_of_neg (by simp [hpa])] at h
      simp [List.filter_cons, hpa, ih h]
    · rw [List.filter_cons_of_pos (by simp [hpa])] at h
      exact absurd h (by simp)

theorem filter_idem {α : Type} (p : α → Bool) (l : List α) :
    (l.filter p).filter p = l.filter p := by
  induction l with
  | nil => rfl
  | cons a rest ih => cases h : p a <;> simp [List.filter_cons, h, ih]

/-- A sensor sync pass on a state that has already materialized
everything in the snapshot creates nothing and leaves the state
untouched. -/
theorem sensorSync_stable (e : String) (snap : Snapshot) (st : SyncState)
    (hjob : ∀ j ∈ snap.jobs, ∀ k, truthyKey j.id = some k →
      k ∈ st.sensorAddedJobIds)
    (hrepo : ∀ r ∈ snap.repositories, ∀ k, truthyOptKey r.id = some k →
      k ∈ st.sensorAddedRepoIds)
    (hserver : (!st.serverAdded && snap.server_info.isSome) = false)
    (hlicense : (!st.licenseAdded && snap.license_info.isSome) = false) :
    sensorSync e (some snap) st = (st, []) := by
  simp only [sensorSync]
  rw [syncLoop_stable _ _ _ _ hjob, syncLoop_stable _ _ _ _ hrepo,
    hserver, hlicense]
  simp [addDevices]

/-- A button sync pass on a state that has already materialized
everything and already removed every stale entity creates and removes
nothing and leaves the state untouched. -/
theorem buttonSync_stable (e : String) (snap : Snapshot) (st : SyncState)
    (hjob : ∀ j ∈ snap.jobs, ∀ k, truthyKey j.id = some k →
      k ∈ st.buttonAddedJobIds)
    (hrepo : ∀ r ∈ snap.repositories, ∀ k, truthyOptKey r.id = some k →
      k ∈ st.buttonAddedRepoIds)
    (hext : ∀ p ∈ allExtentPairs snap.sobrs, ∀ k,
      (truthyOptKey p.2.id).map (fun xid => (p.1, xid)) = some k →
      k ∈ st.buttonAddedExtentIds)
    (hjf : st.buttonAddedJobIds.filter
      (fun i => i ∈ currentJobIdsInData snap) = st.buttonAddedJobIds)
    (hrf : st.buttonAddedRepoIds.filter
      (fun i => i ∈ currentRepoIdsInData snap) = st.buttonAddedRepoIds)
    (hxf : st.buttonAddedExtentIds.filter
      (fun p => p ∈ currentExtentIdsInData snap) = st.buttonAddedExtentIds)
    (hent : st.entities.filter (staleEntity e snap) = []) :
    buttonSync e (some snap) st = (st, [], []) := by
  simp only [buttonSync]
  rw [syncLoop_stable _ _ _ _ hjob, syncLoop_stable _ _ _ _ hrepo,
    syncLoop_stable _ _ _ _ hext]
  simp only [List.append_nil, addDevices, List.foldl_nil]
  rw [hjf, hrf, hxf, hent]
  unfold removeStaleEntities
  rw [filter_neg_eq_self_of_filter_nil _ _ hent]

theorem truthyKey_some {s k : String} (h : truthyKey s = some k) :
    k = s ∧ s ≠ "" := by
  unfold truthyKey at h
  split at h
  · exact absurd h (by simp)
  · exact ⟨((Option.some.injEq _ _).mp h).symm, by assumption⟩

theorem mem_currentJobIds (snap : Snapshot) (j : JobDict)
    (hj : j ∈ snap.jobs) (k : String) (hk : truthyKey j.id = some k) :
    k ∈ currentJobIdsInData snap := by
  obtain ⟨hkj, hne⟩ := truthyKey_some hk
  subst hkj
  unfold currentJobIdsInData
  exact List.mem_filter.mpr
    ⟨List.mem_map.mpr ⟨j, hj, rfl⟩, decide_eq_true hne⟩

theorem mem_currentRepoIds (snap : Snapshot) (r : RepoDict)
    (hr : r ∈ snap.repositories) (k : String)
    (hk : truthyOptKey r.id = some k) :
    k ∈ currentRepoIdsInData snap :=
  List.mem_filterMap.mpr ⟨r, hr, hk⟩

theorem mem_currentExtentIds (snap : Snapshot) (p : String × ExtentDict)
    (hp : p ∈ allExtentPairs snap.sobrs) (k : String × String)
    (hk : (truthyOptKey p.2.id).map (fun xid => (p.1, xid)) = some k) :
    k ∈ currentExtentIdsInData snap := by
  unfold allExtentPairs at hp
  obtain ⟨s, hs, hmem⟩ := List.mem_flatMap.mp hp
  cases hsid : truthyOptKey s.id with
  | none => rw [hsid] at hmem; exact absurd hmem (List.not_mem_nil p)
  | some sid =>
    rw [hsid] at hmem
    obtain ⟨x, hx, rfl⟩ := List.mem_map.mp hmem
    obtain ⟨xid, hxid, rfl⟩ := Option.map_eq_some'.mp hk
    unfold currentExtentIdsInData
    refine List.mem_flatMap.mpr ⟨s, hs, ?_⟩
    rw [hsid]
    exact List.mem_filterMap.mpr ⟨x, hx, by rw [hxid]; rfl⟩

/-- After a sensor pass on any snapshot, the server-sensors condition is
spent. -/
theorem serverAdded_after (e : String) (snap : Snapshot) (st : SyncState) :
    (!(sensorSync e (some snap) st).1.serverAdded
      && snap.server_info.isSome) = false := by
  simp only [sensorSync]
  cases hc : snap.server_info.isSome <;>
    cases hsa : st.serverAdded <;> simp [hc, hsa]

/-- After a sensor pass on any snapshot, the license-sensors condition is
spent. -/
theorem licenseAdded_after (e : String) (snap : Snapshot) (st : SyncState) :
    (!(sensorSync e (some snap) st).1.licenseAdded
      && snap.license_info.isSome) = false := by
  simp only [sensorSync]
  cases hc : snap.license_info.isSome <;>
    cases hsa : st.licenseAdded <;> simp [hc, hsa]

/-- After a button pass, no stale entity of that snapshot remains. -/
theorem buttonSync_entities_filtered (e : String) (snap : Snapshot)
    (st : SyncState) :
    ((buttonSync e (some snap) st).1.entities).filter
      (staleEntity e snap) = [] := by
  simp only [buttonSync, removeStaleEntities]
  exact filter_not_filter _ _

/-- C9: running the reconcile pass (sensor sync, then button sync with
its registry scan) a second time with the same unchanged snapshot
performs zero additional entity creations and zero additional removals. -/
theorem C9_reconcile_idempotent (e : String) (snap : Snapshot)
    (st : SyncState) :
    (reconcile e (some snap) (reconcile e (some snap) st).state).created = []
    ∧ (reconcile e (some snap) (reconcile e (some snap) st).state).removed
      = [] := by
  have hstate : (reconcile e (some snap) st).state =
      (buttonSync e (some snap) (sensorSync e (some snap) st).1).1 := rfl
  rw [hstate]
  set st₁ := (sensorSync e (some snap) st).1 with hst₁
  set st₂ := (buttonSync e (some snap) st₁).1 with hst₂
  have hSjob : ∀ j ∈ snap.jobs, ∀ k, truthyKey j.id = some k →
      k ∈ st₂.sensorAddedJobIds := by
    intro j hj k hk
    show k ∈ (syncLoop (fun (j : JobDict) => truthyKey j.id)
      (jobSensorEntities e) snap.jobs st.sensorAddedJobIds).1
    exact syncLoop_key_mem _ _ _ _ j hj k hk
  have hSrepo : ∀ r ∈ snap.repositories, ∀ k, truthyOptKey r.id = some k →
      k ∈ st₂.sensorAddedRepoIds := by
    intro r hr k hk
    show k ∈ (syncLoop (fun (r : RepoDict) => truthyOptKey r.id)
      (repoSensorEntities e) snap.repositories st.sensorAddedRepoIds).1
    exact syncLoop_key_mem _ _ _ _ r hr k hk
  have hSserver : (!st₂.serverAdded && snap.server_info.isSome) = false :=
    serverAdded_after e snap st
  have hSlicense : (!st₂.licenseAdded && snap.license_info.isSome) = false :=
    licenseAdded_after e snap st
  have hBjob' : st₂.buttonAddedJobIds =
      ((syncLoop (fun (j : JobDict) => truthyKey j.id)
        (jobButtonEntities e) snap.jobs st.buttonAddedJobIds).1).filter
        (fun i => i ∈ currentJobIdsInData snap) := rfl
  have hBrepo' : st₂.buttonAddedRepoIds =
      ((syncLoop (fun (r : RepoDict) => truthyOptKey r.id)
        (repoButtonEntities e) snap.repositories st.buttonAddedRepoIds).1).filter
        (fun i => i ∈ currentRepoIdsInData snap) := rfl
  have hBext' : st₂.buttonAddedExtentIds =
      ((syncLoop (fun (p : String × ExtentDict) =>
          (truthyOptKey p.2.id).map (fun xid => (p.1, xid)))
        (fun k => extentButtonEntities e k.1 k.2)
        (allExtentPairs snap.sobrs) st.buttonAddedExtentIds).1).filter
        (fun p => p ∈ currentExtentIdsInData snap) := rfl
  have hBjob : ∀ j ∈ snap.jobs, ∀ k, truthyKey j.id = some k →
      k ∈ st₂.buttonAddedJobIds := by
    intro j hj k hk
    rw [hBjob']
    exact List.mem_filter.mpr
      ⟨syncLoop_key_mem _ _ _ _ j hj k hk,
        decide_eq_true (mem_currentJobIds snap j hj k hk)⟩
  have hBrepo : ∀ r ∈ snap.repositories, ∀ k, truthyOptKey r.id = some k →
      k ∈ st₂.buttonAddedRepoIds := by
    intro r hr k hk
    rw [hBrepo']
    exact List.mem_filter.mpr
      ⟨syncLoop_key_mem _ _ _ _ r hr k hk,
        decide_eq_true (mem_currentRepoIds snap r hr k hk)⟩
  have hBext : ∀ p ∈ allExtentPairs snap.sobrs, ∀ k,
      (truthyOptKey p.2.id).map (fun xid => (p.1, xid)) = some k →
      k ∈ st₂.buttonAddedExtentIds := by
    intro p hp k hk
    rw [hBext']
    exact List.mem_filter.mpr
      ⟨syncLoop_key_mem _ _ _ _ p hp k hk,
        decide_eq_true (mem_currentExtentIds snap p hp k hk)⟩
  have hjf : st₂.buttonAddedJobIds.filter
      (fun i => i ∈ currentJobIdsInData snap) = st₂.buttonAddedJobIds := by
    rw [hBjob']; exact filter_idem _ _
  have hrf : st₂.buttonAddedRepoIds.filter
      (fun i => i ∈ currentRepoIdsInData snap) = st₂.buttonAddedRepoIds := by
    rw [hBrepo']; exact filter_idem _ _
  have hxf : st₂.buttonAddedExtentIds.filter
      (fun p => p ∈ currentExtentIdsInData snap) = st₂.buttonAddedExtentIds := by
    rw [hBext']; exact filter_idem _ _
  have hent : st₂.entities.filter (staleEntity e snap) = [] :=
    buttonSync_entities_filtered e snap st₁
  have hsen2 : sensorSync e (some snap) st₂ = (st₂, []) :=
    sensorSync_stable e snap st₂ hSjob hSrepo hSserver hSlicense
  have hbtn2 : buttonSync e (some snap) st₂ = (st₂, [], []) :=
    buttonSync_stable e snap st₂ hBjob hBrepo hBext hjf hrf hxf hent
  constructor <;> simp [reconcile, hsen2, hbtn2]

/-- C7: contrary to the claim, no code path removes a device.  A first
reconcile pass against `snapR1` materializes the 16 repository entities
of `r1` and its device; after `r1` is deleted server-side, the next pass
removes all 16 entities but the now-orphaned `repository_r1` device stays
in the device registry — neither `sensor.py` nor `button.py` touches the
device registry, although
`tests/test_basic.py::test_stale_entity_cleanup_uses_registry_scan`
asserts that `sensor.py` must remove orphaned devices via
`async_remove_device`. -/
theorem C7_orphaned_device_not_removed :
    (reconcile "e" (some snapR1) st0).state.entities.length = 16
    ∧ (reconcile "e" (some snapR1) st0).state.devices = ["repository_r1"]
    ∧ (reconcile "e" (some snapNoRepo)
        (reconcile "e" (some snapR1) st0).state).state.entities = []
    ∧ (reconcile "e" (some snapNoRepo)
        (reconcile "e" (some snapR1) st0).state).state.devices =
      ["repository_r1"] := by
  decide

end VeeamBR
